import Mathlib

/-!
# Bulk continuations with the driver chosen by the executor

A shallow embedding of `continuation_experiments/bulk_driver_in_promise.cpp`.

* C++ `int` values are unbounded `Int` (signed overflow is undefined behaviour in
  the source; the loop counter itself cannot overflow because it stays below the
  shape).
* An object that the source reaches through a reference or through `this` is
  passed as explicit state: every member function takes the `InputPromise` it
  acts on and returns the new one.
* A call that can be left by a C++ exception returns a `Ran`: the state reached
  together with the exception in flight, if any.
* The template parameter `F` (the type of the transform) is a `FType`: its call
  operator and the state in which its move constructor leaves the source.
* `trace_` is the only field that is not in the source: a log of the calls made,
  used to count them.
-/

namespace BulkDriverInPromise

/-- An exception object in flight (what a `throw` inside the transform raises). -/
abbrev Exc := Nat

/-- A `std::exception_ptr`: `none` is the null pointer, `some e` points to `e`. -/
abbrev exception_ptr := Option Exc

/-- What one call `f_(a, idx, out)` does: the value it leaves in `out` and the
exception it raises, if any. -/
structure Invoked where
  out : Int
  raised : Option Exc
deriving DecidableEq

/-- The template parameter `F`: a callable object type.  `call` is its
`operator()(const int& a, int idx, int& out)`; `moved` is the state in which
move construction leaves the object it moves from (the newly constructed object
has the value the source had). -/
structure FType where
  Obj : Type
  call : Obj → Int → Int → Int → Invoked
  moved : Obj → Obj

/-- The log of calls (not in the source). -/
inductive Event where
  | transform (a idx out : Int)
  | done
  | slot_value (v : Int)
  | slot_exception (e : exception_ptr)
deriving DecidableEq

/-- The state reached by a call and the exception that left it, if any. -/
structure Ran (σ : Type) where
  state : σ
  thrown : Option Exc

/-- The local class `Promise` of both executors, with the two locals it refers
to: `int resultStorage` (declared without an initialiser, so `none` until it is
assigned) and `std::optional<std::exception_ptr> exceptionStorage`. -/
structure Promise where
  resultStorage : Option Int
  exceptionStorage : Option exception_ptr
deriving DecidableEq

/-- Member function `Promise::set_value`. -/
def Promise.set_value (o : Promise) (value : Int) : Promise :=
  { o with resultStorage := some value }

/-- Member function `Promise::set_exception`. -/
def Promise.set_exception (o : Promise) (e : exception_ptr) : Promise :=
  { o with exceptionStorage := some e }

/-- The driver policy objects `DefaultDriver` and `EndDriver` (both are empty
structs; the value only says which `operator()` is used). -/
inductive BulkDriver where
  | DefaultDriver
  | EndDriver
deriving DecidableEq

/-- The class `InputPromise` (lines 65-120). -/
structure InputPromise (F : FType) where
  f_ : F.Obj
  outputPromise_ : Promise
  inputValue_ : Option Int
  outputException_ : Option exception_ptr
  result_ : Int
  shape_ : Int
  bulkDriver_ : BulkDriver
  trace_ : List Event

variable {F : FType}

/-- The constructor of `InputPromise`: both optionals start empty. -/
def InputPromise.new (f : F.Obj) (outputPromise : Promise) (initialResult shape : Int)
    (bulk_driver : BulkDriver) : InputPromise F :=
  { f_ := f, outputPromise_ := outputPromise, inputValue_ := none,
    outputException_ := none, result_ := initialResult, shape_ := shape,
    bulkDriver_ := bulk_driver, trace_ := [] }

/-- Member function `InputPromise::set_value`. -/
def InputPromise.set_value (p : InputPromise F) (value : Int) : InputPromise F :=
  { p with inputValue_ := some value }

/-- Member function `InputPromise::set_exception`. -/
def InputPromise.set_exception (p : InputPromise F) (e : exception_ptr) : InputPromise F :=
  { p with outputException_ := some e }

/-- Member function `InputPromise::get_shape`. -/
def InputPromise.get_shape (p : InputPromise F) : Int :=
  p.shape_

/-- Member function `InputPromise::execute_at`: with an input value, call the transform on
(input, idx, accumulator); without one, do nothing.  An exception raised by the
transform is not caught here. -/
def InputPromise.execute_at (p : InputPromise F) (idx : Int) : Ran (InputPromise F) :=
  match p.inputValue_ with
  | some a =>
    let r := F.call p.f_ a idx p.result_
    { state := { p with result_ := r.out,
                        trace_ := p.trace_ ++ [Event.transform a idx p.result_] },
      thrown := r.raised }
  | none => { state := p, thrown := none }

/-- Member function `InputPromise::done`: forward the recorded failure, else the accumulator.
`*std::move(outputException_)` leaves the optional engaged, holding a moved-from
(null) `exception_ptr`; `std::move(result_)` of an `int` is a copy. -/
def InputPromise.done (p : InputPromise F) : InputPromise F :=
  match p.outputException_ with
  | some e =>
    { p with outputPromise_ := p.outputPromise_.set_exception e,
             outputException_ := some none,
             trace_ := p.trace_ ++ [Event.done, Event.slot_exception e] }
  | none =>
    { p with outputPromise_ := p.outputPromise_.set_value p.result_,
             trace_ := p.trace_ ++ [Event.done, Event.slot_value p.result_] }

/-- The `for` loop of `DefaultDriverImpl::start` from counter value `i` on.
`shape` is a reference to `promise_.shape_`, read again at every test. -/
def DefaultDriverImpl.loop (i : Int) (p : InputPromise F) : Ran (InputPromise F) :=
  if i < p.get_shape then
    match h : p.execute_at i with
    | { state := p', thrown := some e } => { state := p', thrown := some e }
    | { state := p', thrown := none } => DefaultDriverImpl.loop (i + 1) p'
  else { state := p, thrown := none }
termination_by (p.shape_ - i).toNat
decreasing_by
  have hs : p'.shape_ = p.shape_ := by
    have hk : (p.execute_at i).state.shape_ = p.shape_ := by
      unfold InputPromise.execute_at
      cases p.inputValue_ <;> rfl
    rw [h] at hk
    exact hk
  have hlt : i < p.shape_ := by assumption
  rw [hs]
  omega

/-- Member function `DefaultDriverImpl::start`: the loop, then `promise_.done()`. -/
def DefaultDriverImpl.start (p : InputPromise F) : Ran (InputPromise F) :=
  match DefaultDriverImpl.loop 0 p with
  | { state := p', thrown := some e } => { state := p', thrown := some e }
  | { state := p', thrown := none } => { state := p'.done, thrown := none }

/-- Member function `DefaultDriverImpl::end`: empty. -/
def DefaultDriverImpl.end_ (p : InputPromise F) : Ran (InputPromise F) :=
  { state := p, thrown := none }

/-- The struct `EndDriverImpl`: the three callbacks.  Each closure captures
`this`, so it acts on the promise as it is when the callback runs. -/
structure EndDriverImpl (F : FType) where
  shapeF_ : InputPromise F → Int
  atF_ : Int → InputPromise F → Ran (InputPromise F)
  doneF_ : InputPromise F → Ran (InputPromise F)

/-- Member function `EndDriverImpl::start`: empty. -/
def EndDriverImpl.start (_d : EndDriverImpl F) (p : InputPromise F) : Ran (InputPromise F) :=
  { state := p, thrown := none }

/-- The `for` loop of `EndDriverImpl::end` from counter value `i` on.  `shape`
is bound to the value returned by `shapeF_()` once, before the loop. -/
def EndDriverImpl.loop (d : EndDriverImpl F) (shape : Int) (i : Int) (p : InputPromise F) :
    Ran (InputPromise F) :=
  if i < shape then
    match d.atF_ i p with
    | { state := p', thrown := some e } => { state := p', thrown := some e }
    | { state := p', thrown := none } => EndDriverImpl.loop d shape (i + 1) p'
  else { state := p, thrown := none }
termination_by (shape - i).toNat
decreasing_by omega

/-- Member function `EndDriverImpl::end`: `shapeF_()`, the loop over `atF_`, then `doneF_()`. -/
def EndDriverImpl.end_ (d : EndDriverImpl F) (p : InputPromise F) : Ran (InputPromise F) :=
  match EndDriverImpl.loop d (d.shapeF_ p) 0 p with
  | { state := p', thrown := some e } => { state := p', thrown := some e }
  | { state := p', thrown := none } => d.doneF_ p'

/-- What `bulk_driver()` returns: a `DefaultDriverImpl` (which holds only the
reference to the promise) or an `EndDriverImpl`. -/
inductive DriverImpl (F : FType) where
  | defaultImpl
  | endImpl (d : EndDriverImpl F)

/-- Member function `InputPromise::bulk_driver`: call the stored driver policy on `*this` and
the three closures.  `DefaultDriver::operator()` drops the closures;
`EndDriver::operator()` stores them. -/
def InputPromise.bulk_driver (p : InputPromise F) : DriverImpl F :=
  match p.bulkDriver_ with
  | BulkDriver.DefaultDriver => DriverImpl.defaultImpl
  | BulkDriver.EndDriver =>
    DriverImpl.endImpl
      { shapeF_ := fun q => q.get_shape,
        atF_ := fun i q => q.execute_at i,
        doneF_ := fun q => { state := q.done, thrown := none } }

/-- The call `driver.start()`. -/
def DriverImpl.start (d : DriverImpl F) (p : InputPromise F) : Ran (InputPromise F) :=
  match d with
  | DriverImpl.defaultImpl => DefaultDriverImpl.start p
  | DriverImpl.endImpl d => d.start p

/-- The call `driver.end()`. -/
def DriverImpl.end_ (d : DriverImpl F) (p : InputPromise F) : Ran (InputPromise F) :=
  match d with
  | DriverImpl.defaultImpl => DefaultDriverImpl.end_ p
  | DriverImpl.endImpl d => d.end_ p

/-- The statement pair `driver.start(); driver.end();`: an exception leaving
`start()` skips `end()`. -/
def DriverImpl.start_end (d : DriverImpl F) (p : InputPromise F) : Ran (InputPromise F) :=
  match d.start p with
  | { state := p', thrown := some e } => { state := p', thrown := some e }
  | { state := p', thrown := none } => d.end_ p'

/-- The closure returned by `bulk_then_value` (lines 128-145): its three
captures. -/
structure Builder (F : FType) where
  continuationFunction : F.Obj
  resultFactory : Unit → Int
  s : Int

/-- Function `bulk_then_value(continuationFunction, s, resultFactory)`. -/
def bulk_then_value (continuationFunction : F.Obj) (s : Int) (resultFactory : Unit → Int) :
    Builder F :=
  { continuationFunction := continuationFunction, resultFactory := resultFactory, s := s }

/-- The call operator of the closure (it is `mutable`): build an `InputPromise`
from `std::move(continuationFunction)`, `resultFactory()` and `s`.  The
constructor move-constructs `f_` from the capture, which is left moved-from. -/
def Builder.call (b : Builder F) (outputPromise : Promise) (bulkDriver : BulkDriver) :
    InputPromise F × Builder F :=
  (InputPromise.new b.continuationFunction outputPromise (b.resultFactory ()) b.s bulkDriver,
   { b with continuationFunction := F.moved b.continuationFunction })

/-- The template parameter `Continuation` of `then_execute`: any object that can
be called with (promise, driver policy) and returns the bound continuation.  The
call may change the object, which `then_execute` holds by reference. -/
structure ContinuationType (F : FType) where
  Obj : Type
  call : Obj → Promise → BulkDriver → InputPromise F × Obj

/-- The closure type of `bulk_then_value` as a `Continuation`. -/
def BuilderType (F : FType) : ContinuationType F :=
  { Obj := Builder F, call := Builder.call }

/-- How a call of `then_execute` ends: it returns an assigned `int`, it returns
`resultStorage` that was never assigned (an indeterminate value), or an
exception leaves it. -/
inductive Returned where
  | value (v : Int)
  | indeterminate
  | threw (e : Exc)
deriving DecidableEq

/-- A finished call of `then_execute`: how it ended, the caller's continuation
object afterwards, and the locals `boundCont` (with the slot it refers to) as
they were when the call ended. -/
structure Executed (F : FType) (C : ContinuationType F) where
  result : Returned
  cont : C.Obj
  boundCont : InputPromise F

/-- Lines 179-183 and 215-219, shared by both executors: take the driver, supply
the input, `start()`, `end()`, `return resultStorage`. -/
def run_bound (boundCont : InputPromise F) (inputFuture : Int) : Returned × InputPromise F :=
  let driver := boundCont.bulk_driver
  let boundCont := boundCont.set_value inputFuture
  match driver.start_end boundCont with
  | { state := b, thrown := some e } => (Returned.threw e, b)
  | { state := b, thrown := none } =>
    match b.outputPromise_.resultStorage with
    | some v => (Returned.value v, b)
    | none => (Returned.indeterminate, b)

/-- Member function `SimpleExecutor::then_execute`: the continuation is bound to a fresh slot
and `DefaultDriver{}`. -/
def SimpleExecutor.then_execute (C : ContinuationType F) (cont : C.Obj) (inputFuture : Int) :
    Executed F C :=
  let made := C.call cont { resultStorage := none, exceptionStorage := none }
    BulkDriver.DefaultDriver
  let r := run_bound made.1 inputFuture
  { result := r.1, cont := made.2, boundCont := r.2 }

/-- Member function `BulkExecutor::then_execute`: the continuation is bound to a fresh slot and
`EndDriver{}`. -/
def BulkExecutor.then_execute (C : ContinuationType F) (cont : C.Obj) (inputFuture : Int) :
    Executed F C :=
  let made := C.call cont { resultStorage := none, exceptionStorage := none }
    BulkDriver.EndDriver
  let r := run_bound made.1 inputFuture
  { result := r.1, cont := made.2, boundCont := r.2 }

/-- The transform of `main`: `[](const int& a, int, int& out){out+=a;}`, a
closure without captures. -/
def addInput : FType :=
  { Obj := Unit, call := fun _ a _ out => { out := out + a, raised := none }, moved := id }

/-- Proof device, not in the source: `k` consecutive calls `execute_at i`,
`execute_at (i+1)`, ..., stopping at the first one that throws. -/
def iterate_at : Nat → Int → InputPromise F → Ran (InputPromise F)
  | 0, _, p => { state := p, thrown := none }
  | k + 1, i, p =>
    match p.execute_at i with
    | { state := p', thrown := some e } => { state := p', thrown := some e }
    | { state := p', thrown := none } => iterate_at k (i + 1) p'

/-- Proof device, not in the source: the shape lookup, the index loop and
`done()` as one function of the promise, with the loop unrolled by count. -/
def sequence (p : InputPromise F) : Ran (InputPromise F) :=
  match iterate_at p.shape_.toNat 0 p with
  | { state := p', thrown := some e } => { state := p', thrown := some e }
  | { state := p', thrown := none } => { state := p'.done, thrown := none }

/-- The accumulator after the calls for indices `i, i+1, ..., i+k-1` on input
`a`, starting from `acc` (no call raising). -/
def accumulated (F : FType) (f : F.Obj) (a : Int) : Nat → Int → Int → Int
  | 0, _, acc => acc
  | k + 1, i, acc => accumulated F f a k (i + 1) (F.call f a i acc).out

/-- The log entries of the calls for indices `i, i+1, ..., i+k-1`. -/
def transformLog (F : FType) (f : F.Obj) (a : Int) : Nat → Int → Int → List Event
  | 0, _, _ => []
  | k + 1, i, acc => Event.transform a i acc :: transformLog F f a k (i + 1) (F.call f a i acc).out

/-- Is this log entry a call of the transform? -/
def Event.isTransform : Event → Bool
  | Event.transform _ _ _ => true
  | _ => false

/-- Is this log entry a call of `done()`? -/
def Event.isDone : Event → Bool
  | Event.done => true
  | _ => false

/-- Is this log entry a write to the result slot? -/
def Event.isSlotWrite : Event → Bool
  | Event.slot_value _ => true
  | Event.slot_exception _ => true
  | _ => false

/-- Is this log entry a write of a success value to the result slot? -/
def Event.isSlotValue : Event → Bool
  | Event.slot_value _ => true
  | _ => false

/-- The transform raises nothing on the input the promise holds (if any). -/
def InputPromise.NoThrow (p : InputPromise F) : Prop :=
  ∀ a, p.inputValue_ = some a → ∀ idx out, (F.call p.f_ a idx out).raised = none

/-- Proof device, not in the source: the promise as the loop leaves it when no
call of the transform raises. -/
def afterLoop (p : InputPromise F) : InputPromise F :=
  match p.inputValue_ with
  | none => p
  | some a =>
    { p with result_ := accumulated F p.f_ a p.shape_.toNat 0 p.result_,
             trace_ := p.trace_ ++ transformLog F p.f_ a p.shape_.toNat 0 p.result_ }

/-- Proof device, not in the source: the same promise built with the driver
policy `d`. -/
def InputPromise.rebind (p : InputPromise F) (d : BulkDriver) : InputPromise F :=
  { p with bulkDriver_ := d }

/-- A continuation other than the closure of `bulk_then_value`: it builds the
promise with that closure and reports the failure `e` to it (`set_exception`)
before handing it to the executor. -/
def ReportingType (F : FType) : ContinuationType F :=
  { Obj := Builder F × exception_ptr,
    call := fun c outputPromise bulkDriver =>
      let made := c.1.call outputPromise bulkDriver
      (made.1.set_exception c.2, (made.2, c.2)) }

/-- A promise as `SimpleExecutor` has it before `start()`: the transform of
`main`, fresh slot, accumulator 0, shape 3, input 2. -/
def sampleEager : InputPromise addInput :=
  (InputPromise.new () { resultStorage := none, exceptionStorage := none } 0 3
    BulkDriver.DefaultDriver).set_value 2

/-- The same promise as `BulkExecutor` has it. -/
def sampleDeferred : InputPromise addInput :=
  (InputPromise.new () { resultStorage := none, exceptionStorage := none } 0 3
    BulkDriver.EndDriver).set_value 2

/-- The deferred sample after `set_exception` with a pointer to exception 7. -/
def sampleFailed : InputPromise addInput :=
  sampleDeferred.set_exception (some 7)

/-- A transform that throws exception 42 when called for the index it holds
and adds the input to the accumulator otherwise:
`[k](const int& a, int idx, int& out){ if (idx == k) throw ...; out += a; }`. -/
def failsAt : FType :=
  { Obj := Int,
    call := fun k a idx out =>
      if idx = k then { out := out, raised := some 42 } else { out := out + a, raised := none },
    moved := id }

/-- The index a log entry of a transform call was made for. -/
def Event.index : Event → Option Int
  | Event.transform _ idx _ => some idx
  | _ => none

/-- A promise whose transform throws at index 1: shape 3, accumulator 0,
input 2, eager driver. -/
def sampleThrowing : InputPromise failsAt :=
  (InputPromise.new (1 : Int) { resultStorage := none, exceptionStorage := none } 0 3
    BulkDriver.DefaultDriver).set_value 2

/-- The throwing sample under the deferred driver. -/
def sampleThrowingDeferred : InputPromise failsAt :=
  (InputPromise.new (1 : Int) { resultStorage := none, exceptionStorage := none } 0 3
    BulkDriver.EndDriver).set_value 2

/-! ## The loops -/

theorem execute_at_shape (p : InputPromise F) (idx : Int) :
    (p.execute_at idx).state.shape_ = p.shape_ := by
  unfold InputPromise.execute_at
  cases p.inputValue_ <;> rfl

theorem default_loop_eq_iterate_at (k : Nat) :
    ∀ (i : Int) (p : InputPromise F), (p.shape_ - i).toNat = k →
      DefaultDriverImpl.loop i p = iterate_at k i p := by
  induction k with
  | zero =>
    intro i p hk
    rw [DefaultDriverImpl.loop]
    have : ¬ i < p.get_shape := by
      unfold InputPromise.get_shape
      omega
    simp [this, iterate_at]
  | succ k ih =>
    intro i p hk
    rw [DefaultDriverImpl.loop]
    have hlt : i < p.get_shape := by
      unfold InputPromise.get_shape
      omega
    simp only [hlt, if_true, iterate_at]
    have hs := execute_at_shape p i
    split
    · rename_i p' e h
      simp [h]
    · rename_i p' h
      rw [h] at hs
      simp only [h]
      apply ih
      simp only at hs
      rw [hs]
      unfold InputPromise.get_shape at hlt
      omega

theorem end_loop_eq_iterate_at (k : Nat) :
    ∀ (shape i : Int) (p : InputPromise F), (shape - i).toNat = k →
      EndDriverImpl.loop
        { shapeF_ := fun q => q.get_shape,
          atF_ := fun i q => q.execute_at i,
          doneF_ := fun q => { state := q.done, thrown := none } } shape i p
        = iterate_at k i p := by
  induction k with
  | zero =>
    intro shape i p hk
    rw [EndDriverImpl.loop]
    have : ¬ i < shape := by omega
    simp [this, iterate_at]
  | succ k ih =>
    intro shape i p hk
    rw [EndDriverImpl.loop]
    have hlt : i < shape := by omega
    simp only [hlt, if_true, iterate_at]
    split
    · rename_i p' e h
      simp [h]
    · rename_i p' h
      apply ih
      omega

theorem default_start_eq_sequence (p : InputPromise F) :
    DefaultDriverImpl.start p = sequence p := by
  unfold DefaultDriverImpl.start sequence
  rw [default_loop_eq_iterate_at p.shape_.toNat 0 p (by simp)]

theorem end_driver_eq_sequence (p : InputPromise F) :
    EndDriverImpl.end_
      { shapeF_ := fun q => q.get_shape,
        atF_ := fun i q => q.execute_at i,
        doneF_ := fun q => { state := q.done, thrown := none } } p = sequence p := by
  unfold EndDriverImpl.end_ sequence
  dsimp only
  rw [show p.get_shape = p.shape_ from rfl,
    end_loop_eq_iterate_at p.shape_.toNat p.shape_ 0 p (by simp)]

/-- Whichever driver policy the promise was built with, `start(); end();` is the
shape lookup, the loop and `done()`, once. -/
theorem start_end_eq_sequence (p : InputPromise F) :
    p.bulk_driver.start_end p = sequence p := by
  unfold InputPromise.bulk_driver
  cases hd : p.bulkDriver_ with
  | DefaultDriver =>
    simp only [DriverImpl.start_end, DriverImpl.start, DriverImpl.end_,
      default_start_eq_sequence, DefaultDriverImpl.end_]
    rcases hq : sequence p with ⟨q, _ | e⟩ <;> rfl
  | EndDriver =>
    simp only [DriverImpl.start_end, DriverImpl.start, DriverImpl.end_,
      EndDriverImpl.start, end_driver_eq_sequence]

theorem bulk_driver_set_value (p : InputPromise F) (v : Int) :
    (p.set_value v).bulk_driver = p.bulk_driver := rfl

theorem iterate_at_no_input (k : Nat) (i : Int) (p : InputPromise F)
    (h : p.inputValue_ = none) : iterate_at k i p = { state := p, thrown := none } := by
  induction k generalizing i with
  | zero => rfl
  | succ k ih =>
    simp only [iterate_at, InputPromise.execute_at, h]
    exact ih (i + 1)

theorem iterate_at_input (k : Nat) :
    ∀ (i : Int) (p : InputPromise F) (a : Int), p.inputValue_ = some a →
      (∀ idx out, (F.call p.f_ a idx out).raised = none) →
      iterate_at k i p =
        { state := { p with result_ := accumulated F p.f_ a k i p.result_,
                            trace_ := p.trace_ ++ transformLog F p.f_ a k i p.result_ },
          thrown := none } := by
  induction k with
  | zero =>
    intro i p a _ _
    simp [iterate_at, accumulated, transformLog]
  | succ k ih =>
    intro i p a ha hf
    simp only [iterate_at, InputPromise.execute_at, ha, hf]
    refine Eq.trans (ih (i + 1) _ a ?_ ?_) ?_
    · rfl
    · exact hf
    · simp [accumulated, transformLog]

theorem sequence_of_noThrow (p : InputPromise F) (h : p.NoThrow) :
    sequence p = { state := (afterLoop p).done, thrown := none } := by
  unfold sequence afterLoop
  cases ha : p.inputValue_ with
  | none => rw [iterate_at_no_input _ _ _ ha]
  | some a =>
    rw [iterate_at_input _ _ _ a ha (h a ha)]
    simp [ha]

theorem run_bound_eq (p : InputPromise F) (x : Int) :
    run_bound p x =
      match sequence (p.set_value x) with
      | { state := b, thrown := some e } => (Returned.threw e, b)
      | { state := b, thrown := none } =>
        match b.outputPromise_.resultStorage with
        | some v => (Returned.value v, b)
        | none => (Returned.indeterminate, b) := by
  unfold run_bound
  simp only [← bulk_driver_set_value p x, start_end_eq_sequence]

theorem transformLog_countP (f : F.Obj) (a : Int) (k : Nat) :
    ∀ (i acc : Int), (transformLog F f a k i acc).countP Event.isTransform = k := by
  induction k with
  | zero => intro i acc; rfl
  | succ k ih =>
    intro i acc
    simp [transformLog, Event.isTransform, ih]

theorem transformLog_countP_other (f : F.Obj) (a : Int) (k : Nat) (q : Event → Bool)
    (hq : ∀ a idx out, q (Event.transform a idx out) = false) :
    ∀ (i acc : Int), (transformLog F f a k i acc).countP q = 0 := by
  induction k with
  | zero => intro i acc; rfl
  | succ k ih =>
    intro i acc
    simp [transformLog, hq, ih]

theorem noThrow_new_set_value (f : F.Obj) (pr : Promise) (r0 s : Int) (d : BulkDriver) (x : Int)
    (h : ∀ idx out, (F.call f x idx out).raised = none) :
    ((InputPromise.new f pr r0 s d).set_value x).NoThrow := by
  intro a ha idx out
  simp only [InputPromise.set_value, InputPromise.new, Option.some.injEq] at ha
  subst ha
  exact h idx out

theorem run_bound_new (f : F.Obj) (pr : Promise) (r0 s : Int) (d : BulkDriver) (x : Int)
    (h : ∀ idx out, (F.call f x idx out).raised = none) :
    (run_bound (InputPromise.new f pr r0 s d) x).1
      = Returned.value (accumulated F f x s.toNat 0 r0) := by
  rw [run_bound_eq, sequence_of_noThrow _ (noThrow_new_set_value f pr r0 s d x h)]
  simp [afterLoop, InputPromise.set_value, InputPromise.new, InputPromise.done,
    Promise.set_value]

theorem execute_at_rebind (d : BulkDriver) (p : InputPromise F) (i : Int) :
    (p.rebind d).execute_at i =
      { state := (p.execute_at i).state.rebind d, thrown := (p.execute_at i).thrown } := by
  rcases p with ⟨f, op, iv, oe, r, sh, bd, tr⟩
  cases iv <;> rfl

theorem iterate_at_rebind (d : BulkDriver) (k : Nat) :
    ∀ (i : Int) (p : InputPromise F),
      iterate_at k i (p.rebind d) =
        { state := (iterate_at k i p).state.rebind d,
          thrown := (iterate_at k i p).thrown } := by
  induction k with
  | zero => intro i p; rfl
  | succ k ih =>
    intro i p
    simp only [iterate_at, execute_at_rebind]
    rcases p.execute_at i with ⟨q, _ | e⟩
    · exact ih (i + 1) q
    · rfl

theorem done_rebind (d : BulkDriver) (p : InputPromise F) :
    (p.rebind d).done = p.done.rebind d := by
  rcases p with ⟨f, op, iv, oe, r, sh, bd, tr⟩
  cases oe <;> rfl

theorem sequence_rebind (d : BulkDriver) (p : InputPromise F) :
    sequence (p.rebind d) =
      { state := (sequence p).state.rebind d, thrown := (sequence p).thrown } := by
  unfold sequence
  rw [show (p.rebind d).shape_ = p.shape_ from rfl, iterate_at_rebind]
  rcases iterate_at p.shape_.toNat 0 p with ⟨q, _ | e⟩
  · simp only [done_rebind]
  · rfl

theorem run_bound_rebind (d : BulkDriver) (p : InputPromise F) (x : Int) :
    run_bound (p.rebind d) x = ((run_bound p x).1, (run_bound p x).2.rebind d) := by
  rw [run_bound_eq, run_bound_eq,
    show (p.rebind d).set_value x = (p.set_value x).rebind d from rfl, sequence_rebind]
  rcases sequence (p.set_value x) with ⟨q, _ | e⟩
  · simp only
    rw [show (q.rebind d).outputPromise_ = q.outputPromise_ from rfl]
    cases q.outputPromise_.resultStorage <;> rfl
  · rfl

theorem accumulated_addInput (a : Int) (k : Nat) :
    ∀ (i acc : Int), accumulated addInput () a k i acc = acc + k * a := by
  induction k with
  | zero => intro i acc; simp [accumulated]
  | succ k ih =>
    intro i acc
    rw [accumulated, ih]
    simp only [addInput, Nat.cast_succ]
    ring

theorem run_bound_noThrow (p : InputPromise F) (x : Int) (h : (p.set_value x).NoThrow) :
    run_bound p x =
      match (afterLoop (p.set_value x)).done.outputPromise_.resultStorage with
      | some v => (Returned.value v, (afterLoop (p.set_value x)).done)
      | none => (Returned.indeterminate, (afterLoop (p.set_value x)).done) := by
  rw [run_bound_eq, sequence_of_noThrow _ h]

theorem execute_at_frame (p : InputPromise F) (i : Int) :
    (p.execute_at i).state.f_ = p.f_
    ∧ (p.execute_at i).state.outputPromise_ = p.outputPromise_
    ∧ (p.execute_at i).state.inputValue_ = p.inputValue_
    ∧ (p.execute_at i).state.outputException_ = p.outputException_
    ∧ (p.execute_at i).state.shape_ = p.shape_
    ∧ (p.execute_at i).state.bulkDriver_ = p.bulkDriver_
    ∧ (p.execute_at i).state.trace_.countP Event.isDone = p.trace_.countP Event.isDone
    ∧ (p.execute_at i).state.trace_.countP Event.isSlotWrite
        = p.trace_.countP Event.isSlotWrite := by
  rcases p with ⟨f, op, iv, oe, r, sh, bd, tr⟩
  cases iv <;> simp [InputPromise.execute_at, Event.isDone, Event.isSlotWrite]

theorem iterate_at_frame (k : Nat) :
    ∀ (i : Int) (p : InputPromise F),
      (iterate_at k i p).state.f_ = p.f_
      ∧ (iterate_at k i p).state.outputPromise_ = p.outputPromise_
      ∧ (iterate_at k i p).state.inputValue_ = p.inputValue_
      ∧ (iterate_at k i p).state.outputException_ = p.outputException_
      ∧ (iterate_at k i p).state.shape_ = p.shape_
      ∧ (iterate_at k i p).state.bulkDriver_ = p.bulkDriver_
      ∧ (iterate_at k i p).state.trace_.countP Event.isDone = p.trace_.countP Event.isDone
      ∧ (iterate_at k i p).state.trace_.countP Event.isSlotWrite
          = p.trace_.countP Event.isSlotWrite := by
  induction k with
  | zero => intro i p; exact ⟨rfl, rfl, rfl, rfl, rfl, rfl, rfl, rfl⟩
  | succ k ih =>
    intro i p
    have hx := execute_at_frame p i
    simp only [iterate_at]
    rcases hq : p.execute_at i with ⟨q, _ | e⟩
    · rw [hq] at hx
      simp only at hx ⊢
      have hk := ih (i + 1) q
      obtain ⟨h1, h2, h3, h4, h5, h6, h7, h8⟩ := hx
      obtain ⟨k1, k2, k3, k4, k5, k6, k7, k8⟩ := hk
      exact ⟨k1.trans h1, k2.trans h2, k3.trans h3, k4.trans h4, k5.trans h5, k6.trans h6,
        k7.trans h7, k8.trans h8⟩
    · rw [hq] at hx
      exact hx

theorem iterate_at_raise (a : Int) (e : Exc) (m : Nat) :
    ∀ (k : Nat) (i0 : Int) (p : InputPromise F), p.inputValue_ = some a → m < k →
      (∀ j : Nat, j < m →
        (F.call p.f_ a (i0 + (j : Int)) (accumulated F p.f_ a j i0 p.result_)).raised = none) →
      (F.call p.f_ a (i0 + (m : Int)) (accumulated F p.f_ a m i0 p.result_)).raised = some e →
      iterate_at k i0 p =
        { state :=
            { p with
              result_ := (F.call p.f_ a (i0 + (m : Int)) (accumulated F p.f_ a m i0 p.result_)).out,
              trace_ := p.trace_ ++ transformLog F p.f_ a (m + 1) i0 p.result_ },
          thrown := some e } := by
  induction m with
  | zero =>
    intro k i0 p ha hk _ hat
    obtain ⟨k, rfl⟩ : ∃ k', k = k' + 1 := ⟨k - 1, by omega⟩
    simp only [Nat.cast_zero, add_zero, accumulated] at hat
    simp [iterate_at, InputPromise.execute_at, ha, hat, accumulated, transformLog]
  | succ m ih =>
    intro k i0 p ha hk hbefore hat
    obtain ⟨k, rfl⟩ : ∃ k', k = k' + 1 := ⟨k - 1, by omega⟩
    have h0 : (F.call p.f_ a i0 p.result_).raised = none := by
      have := hbefore 0 (by omega)
      simpa [accumulated] using this
    simp only [iterate_at, InputPromise.execute_at, ha, h0]
    have hcast : ∀ j : Nat, i0 + ((j + 1 : Nat) : Int) = i0 + 1 + (j : Int) := by
      intro j
      push_cast
      ring
    refine Eq.trans (ih k (i0 + 1) _ rfl (by omega) ?_ ?_) ?_
    · intro j hj
      have := hbefore (j + 1) (by omega)
      rw [hcast] at this
      exact this
    · rw [hcast] at hat
      exact hat
    · rw [hcast]
      simp [accumulated, transformLog, ha]

theorem sequence_raise (p : InputPromise F) (a : Int) (n i : Nat) (e : Exc)
    (ha : p.inputValue_ = some a) (hn : p.shape_ = (n : Int)) (hi : i < n)
    (hbefore : ∀ j : Nat, j < i →
      (F.call p.f_ a (j : Int) (accumulated F p.f_ a j 0 p.result_)).raised = none)
    (hat : (F.call p.f_ a (i : Int) (accumulated F p.f_ a i 0 p.result_)).raised = some e) :
    sequence p =
      { state :=
          { p with
            result_ := (F.call p.f_ a (i : Int) (accumulated F p.f_ a i 0 p.result_)).out,
            trace_ := p.trace_ ++ transformLog F p.f_ a (i + 1) 0 p.result_ },
        thrown := some e } := by
  unfold sequence
  have hk : p.shape_.toNat = n := by rw [hn]; simp
  rw [hk, iterate_at_raise a e i n 0 p ha hi (by simpa using hbefore) (by simpa using hat)]
  simp

theorem transformLog_index (f : F.Obj) (a : Int) (k : Nat) :
    ∀ (i acc : Int), (transformLog F f a k i acc).map Event.index
      = (List.range k).map (fun j : Nat => some (i + (j : Int))) := by
  induction k with
  | zero => intro i acc; rfl
  | succ k ih =>
    intro i acc
    rw [List.range_succ_eq_map, transformLog, List.map_cons, ih, List.map_cons, List.map_map]
    simp only [Nat.cast_zero, add_zero, List.cons.injEq]
    refine ⟨rfl, ?_⟩
    apply List.map_congr_left
    intro j _
    simp only [Function.comp, Nat.cast_succ]
    rw [add_assoc, add_comm 1]

theorem done_frame (p : InputPromise F) :
    p.done.f_ = p.f_ ∧ p.done.inputValue_ = p.inputValue_ ∧ p.done.shape_ = p.shape_
    ∧ p.done.bulkDriver_ = p.bulkDriver_ ∧ p.done.result_ = p.result_ := by
  rcases p with ⟨f, op, iv, oe, r, sh, bd, tr⟩
  cases oe <;> exact ⟨rfl, rfl, rfl, rfl, rfl⟩

theorem sequence_shape (p : InputPromise F) : (sequence p).state.shape_ = p.shape_ := by
  unfold sequence
  have h := (iterate_at_frame p.shape_.toNat 0 p).2.2.2.2.1
  rcases hq : iterate_at p.shape_.toNat 0 p with ⟨q, _ | e⟩
  · rw [hq] at h
    exact (done_frame q).2.2.1.trans h
  · rw [hq] at h
    exact h

theorem driver_start_cases (p q : InputPromise F) :
    (p.bulkDriver_ = BulkDriver.DefaultDriver ∧ p.bulk_driver.start q = sequence q
        ∧ p.bulk_driver.end_ q = { state := q, thrown := none })
    ∨ (p.bulkDriver_ = BulkDriver.EndDriver
        ∧ p.bulk_driver.start q = { state := q, thrown := none }
        ∧ p.bulk_driver.end_ q = sequence q) := by
  unfold InputPromise.bulk_driver
  cases hd : p.bulkDriver_ with
  | DefaultDriver => exact Or.inl ⟨rfl, default_start_eq_sequence q, rfl⟩
  | EndDriver => exact Or.inr ⟨rfl, rfl, end_driver_eq_sequence q⟩

theorem noThrow_done_afterLoop (p : InputPromise F) (hf : p.NoThrow) :
    (afterLoop p).done.NoThrow := by
  rcases p with ⟨f, op, iv, oe, r, sh, bd, tr⟩
  cases iv <;> cases oe <;> exact hf

theorem sequence_twice (p : InputPromise F) (hf : p.NoThrow) :
    sequence (sequence p).state
      = { state := (afterLoop (afterLoop p).done).done, thrown := none } := by
  rw [sequence_of_noThrow p hf]
  exact sequence_of_noThrow _ (noThrow_done_afterLoop p hf)

theorem sequence_twice_counts (p : InputPromise F) :
    (afterLoop (afterLoop p).done).done.trace_.countP Event.isSlotWrite
        = p.trace_.countP Event.isSlotWrite + 2
    ∧ (afterLoop (afterLoop p).done).done.trace_.countP Event.isDone
        = p.trace_.countP Event.isDone + 2
    ∧ (afterLoop (afterLoop p).done).done.trace_.countP Event.isTransform
        = p.trace_.countP Event.isTransform
          + 2 * (if p.inputValue_.isSome then p.shape_.toNat else 0) := by
  rcases p with ⟨f, op, iv, oe, r, sh, bd, tr⟩
  cases iv with
  | none =>
    cases oe <;>
      simp [afterLoop, InputPromise.done, Event.isSlotWrite, Event.isDone, Event.isTransform]
  | some a =>
    cases oe <;>
      simp [afterLoop, InputPromise.done, Event.isSlotWrite, Event.isDone, Event.isTransform,
        transformLog_countP,
        transformLog_countP_other f a _ Event.isDone (fun _ _ _ => rfl),
        transformLog_countP_other f a _ Event.isSlotWrite (fun _ _ _ => rfl)] <;> omega

/-! ## The claims -/

/-- C2: on the same transform, shape, accumulator factory and input, the eager
driver (`SimpleExecutor`) and the deferred driver (`BulkExecutor`) end the same
way (same returned value, or same exception), leave the same result slot and have
made the same calls; no property of the transform is used. -/
theorem eager_deferred_same_result (F : FType) (f : F.Obj) (s : Int) (rf : Unit → Int)
    (x : Int) :
    (SimpleExecutor.then_execute (BuilderType F) (bulk_then_value f s rf) x).result
        = (BulkExecutor.then_execute (BuilderType F) (bulk_then_value f s rf) x).result
    ∧ (SimpleExecutor.then_execute (BuilderType F) (bulk_then_value f s rf) x).boundCont.outputPromise_
        = (BulkExecutor.then_execute (BuilderType F) (bulk_then_value f s rf) x).boundCont.outputPromise_
    ∧ (SimpleExecutor.then_execute (BuilderType F) (bulk_then_value f s rf) x).boundCont.trace_
        = (BulkExecutor.then_execute (BuilderType F) (bulk_then_value f s rf) x).boundCont.trace_ := by
  have h := run_bound_rebind BulkDriver.EndDriver
    (InputPromise.new f { resultStorage := none, exceptionStorage := none } (rf ()) s
      BulkDriver.DefaultDriver) x
  have hb : BulkExecutor.then_execute (BuilderType F) (bulk_then_value f s rf) x
      = { result := (run_bound ((InputPromise.new f
              { resultStorage := none, exceptionStorage := none } (rf ()) s
              BulkDriver.DefaultDriver).rebind BulkDriver.EndDriver) x).1,
          cont := { continuationFunction := F.moved f, resultFactory := rf, s := s },
          boundCont := (run_bound ((InputPromise.new f
              { resultStorage := none, exceptionStorage := none } (rf ()) s
              BulkDriver.DefaultDriver).rebind BulkDriver.EndDriver) x).2 } := rfl
  rw [hb, h]
  exact ⟨rfl, rfl, rfl⟩

/-- C3: with the transform `out += a` of `main`, both executors return
`r0 + n * a` for shape `n`, initial accumulator `r0` and input `a`; shape 20,
accumulator 0 and input 2 give 40. -/
theorem add_input_result (n : Nat) (r0 a : Int) :
    (SimpleExecutor.then_execute (BuilderType addInput)
        (bulk_then_value () n (fun _ => r0)) a).result = Returned.value (r0 + n * a)
    ∧ (BulkExecutor.then_execute (BuilderType addInput)
        (bulk_then_value () n (fun _ => r0)) a).result = Returned.value (r0 + n * a)
    ∧ (SimpleExecutor.then_execute (BuilderType addInput)
        (bulk_then_value () 20 (fun _ => 0)) 2).result = Returned.value 40
    ∧ (BulkExecutor.then_execute (BuilderType addInput)
        (bulk_then_value () 20 (fun _ => 0)) 2).result = Returned.value 40 := by
  have key : ∀ (d : BulkDriver) (m : Nat) (r a : Int),
      (run_bound (InputPromise.new (F := addInput) ()
        { resultStorage := none, exceptionStorage := none } r m d) a).1
        = Returned.value (r + m * a) := by
    intro d m r a
    rw [run_bound_new (F := addInput) () _ _ _ d a (fun _ _ => rfl), accumulated_addInput]
    simp
  refine ⟨key BulkDriver.DefaultDriver n r0 a, key BulkDriver.EndDriver n r0 a, ?_, ?_⟩
  · exact (key BulkDriver.DefaultDriver 20 0 2).trans (by norm_num)
  · exact (key BulkDriver.EndDriver 20 0 2).trans (by norm_num)

/-- C4: for shape 0, whatever the transform and the input, both executors return
the initial accumulator `rf()`; the calls made are exactly one `done()` and one
write of `rf()` to the result slot, and no call of the transform. -/
theorem shape_zero_result (F : FType) (f : F.Obj) (rf : Unit → Int) (x : Int) :
    (SimpleExecutor.then_execute (BuilderType F) (bulk_then_value f 0 rf) x).result
        = Returned.value (rf ())
    ∧ (SimpleExecutor.then_execute (BuilderType F) (bulk_then_value f 0 rf) x).boundCont.trace_
        = [Event.done, Event.slot_value (rf ())]
    ∧ (SimpleExecutor.then_execute (BuilderType F) (bulk_then_value f 0 rf) x).boundCont.outputPromise_
        = { resultStorage := some (rf ()), exceptionStorage := none }
    ∧ (BulkExecutor.then_execute (BuilderType F) (bulk_then_value f 0 rf) x).result
        = Returned.value (rf ())
    ∧ (BulkExecutor.then_execute (BuilderType F) (bulk_then_value f 0 rf) x).boundCont.trace_
        = [Event.done, Event.slot_value (rf ())]
    ∧ (BulkExecutor.then_execute (BuilderType F) (bulk_then_value f 0 rf) x).boundCont.outputPromise_
        = { resultStorage := some (rf ()), exceptionStorage := none } := by
  have key : ∀ d : BulkDriver,
      run_bound (InputPromise.new f { resultStorage := none, exceptionStorage := none }
        (rf ()) 0 d) x
        = (Returned.value (rf ()),
            { f_ := f,
              outputPromise_ := { resultStorage := some (rf ()), exceptionStorage := none },
              inputValue_ := some x, outputException_ := none, result_ := rf (), shape_ := 0,
              bulkDriver_ := d, trace_ := [Event.done, Event.slot_value (rf ())] }) := by
    intro d
    rw [run_bound_eq]
    rfl
  have hs : SimpleExecutor.then_execute (BuilderType F) (bulk_then_value f 0 rf) x
      = { result := (run_bound (InputPromise.new f
              { resultStorage := none, exceptionStorage := none } (rf ()) 0
              BulkDriver.DefaultDriver) x).1,
          cont := { continuationFunction := F.moved f, resultFactory := rf, s := 0 },
          boundCont := (run_bound (InputPromise.new f
              { resultStorage := none, exceptionStorage := none } (rf ()) 0
              BulkDriver.DefaultDriver) x).2 } := rfl
  have hb : BulkExecutor.then_execute (BuilderType F) (bulk_then_value f 0 rf) x
      = { result := (run_bound (InputPromise.new f
              { resultStorage := none, exceptionStorage := none } (rf ()) 0
              BulkDriver.EndDriver) x).1,
          cont := { continuationFunction := F.moved f, resultFactory := rf, s := 0 },
          boundCont := (run_bound (InputPromise.new f
              { resultStorage := none, exceptionStorage := none } (rf ()) 0
              BulkDriver.EndDriver) x).2 } := rfl
  rw [hs, hb, key, key]
  exact ⟨rfl, rfl, rfl, rfl, rfl, rfl⟩

/-- C5: when a failure `e` has been reported to the promise (`set_exception`)
and the transform raises nothing, `start(); end();` of either driver returns, the
result slot then holds `e`, and the slot's success value has not been written:
`resultStorage` is as before and no value write was logged.  The promise is
arbitrary otherwise (any shape, input supplied or not, any accumulator). -/
theorem reported_failure_reaches_slot (F : FType) (p : InputPromise F) (e : exception_ptr)
    (he : p.outputException_ = some e) (hf : p.NoThrow) :
    (p.bulk_driver.start_end p).thrown = none
    ∧ (p.bulk_driver.start_end p).state.outputPromise_.exceptionStorage = some e
    ∧ (p.bulk_driver.start_end p).state.outputPromise_.resultStorage
        = p.outputPromise_.resultStorage
    ∧ (p.bulk_driver.start_end p).state.trace_.countP Event.isSlotValue
        = p.trace_.countP Event.isSlotValue := by
  rw [start_end_eq_sequence, sequence_of_noThrow p hf]
  rcases p with ⟨f, op, iv, oe, r, sh, bd, tr⟩
  simp only at he
  subst he
  cases iv with
  | none =>
    simp [afterLoop, InputPromise.done, Promise.set_exception, Event.isSlotValue]
  | some a =>
    simp [afterLoop, InputPromise.done, Promise.set_exception, Event.isSlotValue,
      transformLog_countP_other f a _ Event.isSlotValue (fun _ _ _ => rfl)]

/-- Witness of C5: the deferred sample promise with the failure `some 7`
reported. -/
theorem reported_failure_reaches_slot_witness :
    sampleFailed.outputException_ = some (some 7)
    ∧ sampleFailed.NoThrow
    ∧ (sampleFailed.bulk_driver.start_end sampleFailed).thrown = none
    ∧ (sampleFailed.bulk_driver.start_end sampleFailed).state.outputPromise_.exceptionStorage
        = some (some 7)
    ∧ (sampleFailed.bulk_driver.start_end sampleFailed).state.outputPromise_.resultStorage
        = sampleFailed.outputPromise_.resultStorage
    ∧ (sampleFailed.bulk_driver.start_end sampleFailed).state.trace_.countP Event.isSlotValue
        = sampleFailed.trace_.countP Event.isSlotValue :=
  ⟨rfl, fun _ _ _ _ => rfl,
    reported_failure_reaches_slot addInput sampleFailed (some 7) rfl (fun _ _ _ _ => rfl)⟩

/-- C6: for either driver and any promise whose transform raises nothing and
whose result slot is still unwritten, `start(); end();` returns, `done()` has then
been called exactly once more, the slot has been written exactly once, and the
slot holds either a value or a failure, not both. -/
theorem finalize_exactly_once (F : FType) (p : InputPromise F) (hf : p.NoThrow)
    (hslot : p.outputPromise_ = { resultStorage := none, exceptionStorage := none }) :
    (p.bulk_driver.start_end p).thrown = none
    ∧ (p.bulk_driver.start_end p).state.trace_.countP Event.isDone
        = p.trace_.countP Event.isDone + 1
    ∧ (p.bulk_driver.start_end p).state.trace_.countP Event.isSlotWrite
        = p.trace_.countP Event.isSlotWrite + 1
    ∧ (((p.bulk_driver.start_end p).state.outputPromise_.resultStorage.isSome = true
          ∧ (p.bulk_driver.start_end p).state.outputPromise_.exceptionStorage = none)
        ∨ ((p.bulk_driver.start_end p).state.outputPromise_.resultStorage = none
          ∧ (p.bulk_driver.start_end p).state.outputPromise_.exceptionStorage.isSome = true)) := by
  rw [start_end_eq_sequence, sequence_of_noThrow p hf]
  rcases p with ⟨f, op, iv, oe, r, sh, bd, tr⟩
  simp only at hslot
  subst hslot
  cases iv with
  | none =>
    cases oe <;>
      simp [afterLoop, InputPromise.done, Promise.set_exception, Promise.set_value,
        Event.isDone, Event.isSlotWrite]
  | some a =>
    cases oe <;>
      simp [afterLoop, InputPromise.done, Promise.set_exception, Promise.set_value,
        Event.isDone, Event.isSlotWrite,
        transformLog_countP_other f a _ Event.isDone (fun _ _ _ => rfl),
        transformLog_countP_other f a _ Event.isSlotWrite (fun _ _ _ => rfl)]

/-- Witness of C6: the eager sample promise. -/
theorem finalize_exactly_once_witness :
    sampleEager.NoThrow
    ∧ sampleEager.outputPromise_ = { resultStorage := none, exceptionStorage := none }
    ∧ (sampleEager.bulk_driver.start_end sampleEager).thrown = none
    ∧ (sampleEager.bulk_driver.start_end sampleEager).state.trace_.countP Event.isDone
        = sampleEager.trace_.countP Event.isDone + 1
    ∧ (sampleEager.bulk_driver.start_end sampleEager).state.trace_.countP Event.isSlotWrite
        = sampleEager.trace_.countP Event.isSlotWrite + 1
    ∧ (((sampleEager.bulk_driver.start_end sampleEager).state.outputPromise_.resultStorage.isSome
            = true
          ∧ (sampleEager.bulk_driver.start_end sampleEager).state.outputPromise_.exceptionStorage
            = none)
        ∨ ((sampleEager.bulk_driver.start_end sampleEager).state.outputPromise_.resultStorage = none
          ∧ (sampleEager.bulk_driver.start_end
              sampleEager).state.outputPromise_.exceptionStorage.isSome = true)) :=
  ⟨fun _ _ _ _ => rfl, rfl,
    finalize_exactly_once addInput sampleEager (fun _ _ _ _ => rfl) rfl⟩

/-- C8: a promise built by the closure of `bulk_then_value` and never given an
input value or a failure: for every shape and either driver policy,
`start(); end();` returns, `done()` runs once, the transform is not called, and
the result slot receives as its value the accumulator, still `rf()`. -/
theorem no_input_finalizes (F : FType) (f : F.Obj) (s : Int) (rf : Unit → Int)
    (d : BulkDriver) :
    (((bulk_then_value f s rf).call { resultStorage := none, exceptionStorage := none }
          d).1.bulk_driver.start_end
        ((bulk_then_value f s rf).call { resultStorage := none, exceptionStorage := none }
          d).1).thrown = none
    ∧ (((bulk_then_value f s rf).call { resultStorage := none, exceptionStorage := none }
          d).1.bulk_driver.start_end
        ((bulk_then_value f s rf).call { resultStorage := none, exceptionStorage := none }
          d).1).state.outputPromise_
        = { resultStorage := some (rf ()), exceptionStorage := none }
    ∧ (((bulk_then_value f s rf).call { resultStorage := none, exceptionStorage := none }
          d).1.bulk_driver.start_end
        ((bulk_then_value f s rf).call { resultStorage := none, exceptionStorage := none }
          d).1).state.result_ = rf ()
    ∧ (((bulk_then_value f s rf).call { resultStorage := none, exceptionStorage := none }
          d).1.bulk_driver.start_end
        ((bulk_then_value f s rf).call { resultStorage := none, exceptionStorage := none }
          d).1).state.trace_ = [Event.done, Event.slot_value (rf ())] := by
  rw [start_end_eq_sequence, sequence_of_noThrow _ (by intro a ha; cases ha)]
  exact ⟨rfl, rfl, rfl, rfl⟩

/-- C10, the code at the failing input: a continuation that reports the failure
`some 7` to the promise it builds.  `done()` stores the failure in the slot, and
`then_execute` of both executors still executes `return resultStorage`, which was
never assigned; the failure is not raised to the caller. -/
theorem then_execute_drops_recorded_failure :
    (SimpleExecutor.then_execute (ReportingType addInput)
        (bulk_then_value () 3 (fun _ => 0), some 7) 2).result = Returned.indeterminate
    ∧ (SimpleExecutor.then_execute (ReportingType addInput)
        (bulk_then_value () 3 (fun _ => 0), some 7) 2).boundCont.outputPromise_
        = { resultStorage := none, exceptionStorage := some (some 7) }
    ∧ (BulkExecutor.then_execute (ReportingType addInput)
        (bulk_then_value () 3 (fun _ => 0), some 7) 2).result = Returned.indeterminate
    ∧ (BulkExecutor.then_execute (ReportingType addInput)
        (bulk_then_value () 3 (fun _ => 0), some 7) 2).boundCont.outputPromise_
        = { resultStorage := none, exceptionStorage := some (some 7) } := by
  have key : ∀ d : BulkDriver,
      run_bound ((InputPromise.new (F := addInput) ()
          { resultStorage := none, exceptionStorage := none } 0 3 d).set_exception (some 7)) 2
        = (Returned.indeterminate,
            { f_ := (),
              outputPromise_ := { resultStorage := none, exceptionStorage := some (some 7) },
              inputValue_ := some 2, outputException_ := some none, result_ := 6, shape_ := 3,
              bulkDriver_ := d,
              trace_ := [Event.transform 2 0 0, Event.transform 2 1 2, Event.transform 2 2 4,
                Event.done, Event.slot_exception (some 7)] }) := by
    intro d
    rw [run_bound_noThrow _ _ (fun _ _ _ _ => rfl)]
    rfl
  exact ⟨congrArg Prod.fst (key BulkDriver.DefaultDriver),
    congrArg (fun r => r.2.outputPromise_) (key BulkDriver.DefaultDriver),
    congrArg Prod.fst (key BulkDriver.EndDriver),
    congrArg (fun r => r.2.outputPromise_) (key BulkDriver.EndDriver)⟩

/-- C11: when an input is held and the sequential run over a shape `n` first
meets a raising call at index `i < n` (the calls for `0..i-1` raise nothing, the
call for `i` raises `e`), `start(); end();` of either driver is left by `e`, the calls of the
transform made are exactly those for the indices `0, 1, ..., i` in this order,
none for an index above `i`, and lines 179-183 of `then_execute` hand `e` to the
caller. -/
theorem fail_fast_first_failure (F : FType) (p : InputPromise F) (a : Int) (n i : Nat)
    (e : Exc) (ha : p.inputValue_ = some a) (hn : p.shape_ = (n : Int)) (hi : i < n)
    (hbefore : ∀ j : Nat, j < i →
      (F.call p.f_ a (j : Int) (accumulated F p.f_ a j 0 p.result_)).raised = none)
    (hat : (F.call p.f_ a (i : Int) (accumulated F p.f_ a i 0 p.result_)).raised = some e) :
    (p.bulk_driver.start_end p).thrown = some e
    ∧ (p.bulk_driver.start_end p).state.trace_
        = p.trace_ ++ transformLog F p.f_ a (i + 1) 0 p.result_
    ∧ (p.bulk_driver.start_end p).state.trace_.map Event.index
        = p.trace_.map Event.index ++ (List.range (i + 1)).map (fun j : Nat => some (j : Int))
    ∧ (run_bound p a).1 = Returned.threw e := by
  have hp : p.set_value a = p := by
    rcases p with ⟨f, op, iv, oe, r, sh, bd, tr⟩
    simp only at ha
    subst ha
    rfl
  rw [start_end_eq_sequence, run_bound_eq, hp, sequence_raise p a n i e ha hn hi hbefore hat]
  refine ⟨rfl, rfl, ?_, rfl⟩
  simp [transformLog_index]

/-- Witness of C11: the transform that throws at index 1, on shape 3. -/
theorem fail_fast_first_failure_witness :
    sampleThrowing.inputValue_ = some 2
    ∧ sampleThrowing.shape_ = ((3 : Nat) : Int)
    ∧ (sampleThrowing.bulk_driver.start_end sampleThrowing).thrown = some 42
    ∧ (sampleThrowing.bulk_driver.start_end sampleThrowing).state.trace_
        = sampleThrowing.trace_
          ++ transformLog failsAt sampleThrowing.f_ 2 (1 + 1) 0 sampleThrowing.result_
    ∧ (sampleThrowing.bulk_driver.start_end sampleThrowing).state.trace_.map Event.index
        = sampleThrowing.trace_.map Event.index
          ++ (List.range (1 + 1)).map (fun j : Nat => some (j : Int))
    ∧ (run_bound sampleThrowing 2).1 = Returned.threw 42 :=
  ⟨rfl, rfl,
    fail_fast_first_failure failsAt sampleThrowing 2 3 1 42 rfl rfl (by decide)
      (fun j hj => by
        obtain rfl : j = 0 := by omega
        rfl)
      rfl⟩

/-- C12, counterexample: a transform that throws exception 42 at index 1, on
shape 3, accumulator 0, input 2.  The exception leaves `then_execute` of both
executors; `done()` has not run, no failure was recorded in the promise and the
result slot is unwritten. -/
theorem transform_failure_escapes :
    (SimpleExecutor.then_execute (BuilderType failsAt)
        (bulk_then_value (F := failsAt) (1 : Int) 3 (fun _ => 0)) 2).result = Returned.threw 42
    ∧ (SimpleExecutor.then_execute (BuilderType failsAt)
        (bulk_then_value (F := failsAt) (1 : Int) 3 (fun _ => 0)) 2).boundCont.outputPromise_
        = { resultStorage := none, exceptionStorage := none }
    ∧ (SimpleExecutor.then_execute (BuilderType failsAt)
        (bulk_then_value (F := failsAt) (1 : Int) 3 (fun _ => 0)) 2).boundCont.outputException_
        = none
    ∧ (SimpleExecutor.then_execute (BuilderType failsAt)
        (bulk_then_value (F := failsAt) (1 : Int) 3 (fun _ => 0)) 2).boundCont.trace_
        = [Event.transform 2 0 0, Event.transform 2 1 2]
    ∧ (BulkExecutor.then_execute (BuilderType failsAt)
        (bulk_then_value (F := failsAt) (1 : Int) 3 (fun _ => 0)) 2).result = Returned.threw 42
    ∧ (BulkExecutor.then_execute (BuilderType failsAt)
        (bulk_then_value (F := failsAt) (1 : Int) 3 (fun _ => 0)) 2).boundCont.outputPromise_
        = { resultStorage := none, exceptionStorage := none }
    ∧ (BulkExecutor.then_execute (BuilderType failsAt)
        (bulk_then_value (F := failsAt) (1 : Int) 3 (fun _ => 0)) 2).boundCont.outputException_
        = none
    ∧ (BulkExecutor.then_execute (BuilderType failsAt)
        (bulk_then_value (F := failsAt) (1 : Int) 3 (fun _ => 0)) 2).boundCont.trace_
        = [Event.transform 2 0 0, Event.transform 2 1 2] := by
  have key : ∀ d : BulkDriver,
      run_bound (InputPromise.new (F := failsAt) (1 : Int)
          { resultStorage := none, exceptionStorage := none } 0 3 d) 2
        = (Returned.threw 42,
            { f_ := (1 : Int),
              outputPromise_ := { resultStorage := none, exceptionStorage := none },
              inputValue_ := some 2, outputException_ := none, result_ := 2, shape_ := 3,
              bulkDriver_ := d,
              trace_ := [Event.transform 2 0 0, Event.transform 2 1 2] }) := by
    intro d
    rw [run_bound_eq]
    rfl
  have hs := key BulkDriver.DefaultDriver
  have hb := key BulkDriver.EndDriver
  exact ⟨congrArg Prod.fst hs, congrArg (fun r => r.2.outputPromise_) hs,
    congrArg (fun r => r.2.outputException_) hs, congrArg (fun r => r.2.trace_) hs,
    congrArg Prod.fst hb, congrArg (fun r => r.2.outputPromise_) hb,
    congrArg (fun r => r.2.outputException_) hb, congrArg (fun r => r.2.trace_) hb⟩

/-- C12, amended: a failure raised by the transform is not caught.  With an
input held, every `execute_at` is left by whatever its call of the transform
raises; and when the run first meets a raising call at index `i < n`, raising
`e`, `start(); end();` of either driver is left by `e` with no failure recorded
in the promise, `done()` not run and the result slot as it was. -/
theorem transform_failure_not_caught (F : FType) (p : InputPromise F) (a : Int) (n i : Nat)
    (e : Exc) (ha : p.inputValue_ = some a) (hn : p.shape_ = (n : Int)) (hi : i < n)
    (hbefore : ∀ j : Nat, j < i →
      (F.call p.f_ a (j : Int) (accumulated F p.f_ a j 0 p.result_)).raised = none)
    (hat : (F.call p.f_ a (i : Int) (accumulated F p.f_ a i 0 p.result_)).raised = some e) :
    (∀ idx : Int, (p.execute_at idx).thrown = (F.call p.f_ a idx p.result_).raised)
    ∧ (p.bulk_driver.start_end p).thrown = some e
    ∧ (p.bulk_driver.start_end p).state.outputException_ = p.outputException_
    ∧ (p.bulk_driver.start_end p).state.outputPromise_ = p.outputPromise_
    ∧ (p.bulk_driver.start_end p).state.trace_.countP Event.isDone
        = p.trace_.countP Event.isDone
    ∧ (p.bulk_driver.start_end p).state.trace_.countP Event.isSlotWrite
        = p.trace_.countP Event.isSlotWrite := by
  rw [start_end_eq_sequence, sequence_raise p a n i e ha hn hi hbefore hat]
  refine ⟨?_, rfl, rfl, rfl, ?_, ?_⟩
  · intro idx
    simp [InputPromise.execute_at, ha]
  · simp [transformLog_countP_other p.f_ a _ Event.isDone (fun _ _ _ => rfl)]
  · simp [transformLog_countP_other p.f_ a _ Event.isSlotWrite (fun _ _ _ => rfl)]

/-- Witness of the amended C12: the throwing sample under the deferred driver. -/
theorem transform_failure_not_caught_witness :
    sampleThrowingDeferred.inputValue_ = some 2
    ∧ sampleThrowingDeferred.shape_ = ((3 : Nat) : Int)
    ∧ (∀ idx : Int, (sampleThrowingDeferred.execute_at idx).thrown
        = (failsAt.call sampleThrowingDeferred.f_ 2 idx sampleThrowingDeferred.result_).raised)
    ∧ (sampleThrowingDeferred.bulk_driver.start_end sampleThrowingDeferred).thrown = some 42
    ∧ (sampleThrowingDeferred.bulk_driver.start_end sampleThrowingDeferred).state.outputException_
        = sampleThrowingDeferred.outputException_
    ∧ (sampleThrowingDeferred.bulk_driver.start_end sampleThrowingDeferred).state.outputPromise_
        = sampleThrowingDeferred.outputPromise_
    ∧ (sampleThrowingDeferred.bulk_driver.start_end
          sampleThrowingDeferred).state.trace_.countP Event.isDone
        = sampleThrowingDeferred.trace_.countP Event.isDone
    ∧ (sampleThrowingDeferred.bulk_driver.start_end
          sampleThrowingDeferred).state.trace_.countP Event.isSlotWrite
        = sampleThrowingDeferred.trace_.countP Event.isSlotWrite :=
  ⟨rfl, rfl,
    transform_failure_not_caught failsAt sampleThrowingDeferred 2 3 1 42 rfl rfl (by decide)
      (fun j hj => by
        obtain rfl : j = 0 := by omega
        rfl)
      rfl⟩

/-- C13: where the work is done.  For a promise `q` built with `DefaultDriver`
(eager), `start()` is the whole sequence of shape lookup, index loop and `done()`
(all that `start(); end();` does) and `end()` returns any promise state `r`
unchanged; for one built with `EndDriver` (deferred), `start()` returns any state
unchanged and `end()` is the whole sequence. -/
theorem phase_placement (F : FType) (p r : InputPromise F) :
    (p.rebind BulkDriver.DefaultDriver).bulk_driver.start (p.rebind BulkDriver.DefaultDriver)
        = sequence (p.rebind BulkDriver.DefaultDriver)
    ∧ (p.rebind BulkDriver.DefaultDriver).bulk_driver.start (p.rebind BulkDriver.DefaultDriver)
        = (p.rebind BulkDriver.DefaultDriver).bulk_driver.start_end
            (p.rebind BulkDriver.DefaultDriver)
    ∧ (p.rebind BulkDriver.DefaultDriver).bulk_driver.end_ r = { state := r, thrown := none }
    ∧ (p.rebind BulkDriver.EndDriver).bulk_driver.start r = { state := r, thrown := none }
    ∧ (p.rebind BulkDriver.EndDriver).bulk_driver.end_ (p.rebind BulkDriver.EndDriver)
        = sequence (p.rebind BulkDriver.EndDriver)
    ∧ (p.rebind BulkDriver.EndDriver).bulk_driver.end_ (p.rebind BulkDriver.EndDriver)
        = (p.rebind BulkDriver.EndDriver).bulk_driver.start_end
            (p.rebind BulkDriver.EndDriver) := by
  have he : (p.rebind BulkDriver.DefaultDriver).bulk_driver.start
      (p.rebind BulkDriver.DefaultDriver) = sequence (p.rebind BulkDriver.DefaultDriver) :=
    default_start_eq_sequence _
  have hd : (p.rebind BulkDriver.EndDriver).bulk_driver.end_ (p.rebind BulkDriver.EndDriver)
      = sequence (p.rebind BulkDriver.EndDriver) :=
    end_driver_eq_sequence _
  refine ⟨he, ?_, rfl, rfl, hd, ?_⟩
  · rw [he, start_end_eq_sequence]
  · rw [hd, start_end_eq_sequence]

/-- C14, counterexample: nothing rejects a repeated call.  On the eager sample
(shape 3, input 2, accumulator 0) a second `start()` returns normally, runs the
transform again on the accumulated 6 and writes 12 to the slot, the second write;
a second `done()` writes the slot again; a second `end()` on the deferred sample
does as the second `start()` on the eager one. -/
theorem second_call_runs_again :
    (sampleEager.bulk_driver.start (sampleEager.bulk_driver.start sampleEager).state).thrown
        = none
    ∧ (sampleEager.bulk_driver.start
        (sampleEager.bulk_driver.start sampleEager).state).state.outputPromise_.resultStorage
        = some 12
    ∧ (sampleEager.bulk_driver.start (sampleEager.bulk_driver.start sampleEager).state).state.trace_
        = [Event.transform 2 0 0, Event.transform 2 1 2, Event.transform 2 2 4,
            Event.done, Event.slot_value 6,
            Event.transform 2 0 6, Event.transform 2 1 8, Event.transform 2 2 10,
            Event.done, Event.slot_value 12]
    ∧ sampleEager.done.done.trace_
        = [Event.done, Event.slot_value 0, Event.done, Event.slot_value 0]
    ∧ (sampleDeferred.bulk_driver.end_ (sampleDeferred.bulk_driver.end_ sampleDeferred).state).thrown
        = none
    ∧ (sampleDeferred.bulk_driver.end_
        (sampleDeferred.bulk_driver.end_ sampleDeferred).state).state.trace_
        = [Event.transform 2 0 0, Event.transform 2 1 2, Event.transform 2 2 4,
            Event.done, Event.slot_value 6,
            Event.transform 2 0 6, Event.transform 2 1 8, Event.transform 2 2 10,
            Event.done, Event.slot_value 12] := by
  have he : ∀ q : InputPromise addInput, sampleEager.bulk_driver.start q = sequence q :=
    fun q => default_start_eq_sequence q
  have hd : ∀ q : InputPromise addInput, sampleDeferred.bulk_driver.end_ q = sequence q :=
    fun q => end_driver_eq_sequence q
  rw [he, he, hd, hd]
  exact ⟨rfl, rfl, rfl, rfl, rfl, rfl⟩

/-- C14, amended: a repeated call is not rejected.  For a promise whose
transform raises nothing, a second `done()` writes the result slot a second time;
a second `start()` on the eager driver and a second `end()` on the deferred driver
return normally, having run the index loop a second time and written the slot a
second time. -/
theorem repeated_call_not_rejected (F : FType) (p : InputPromise F) (hf : p.NoThrow) :
    p.done.done.trace_.countP Event.isSlotWrite = p.trace_.countP Event.isSlotWrite + 2
    ∧ ((p.rebind BulkDriver.DefaultDriver).bulk_driver.start
        ((p.rebind BulkDriver.DefaultDriver).bulk_driver.start
          (p.rebind BulkDriver.DefaultDriver)).state).thrown = none
    ∧ ((p.rebind BulkDriver.DefaultDriver).bulk_driver.start
        ((p.rebind BulkDriver.DefaultDriver).bulk_driver.start
          (p.rebind BulkDriver.DefaultDriver)).state).state.trace_.countP Event.isSlotWrite
        = p.trace_.countP Event.isSlotWrite + 2
    ∧ ((p.rebind BulkDriver.DefaultDriver).bulk_driver.start
        ((p.rebind BulkDriver.DefaultDriver).bulk_driver.start
          (p.rebind BulkDriver.DefaultDriver)).state).state.trace_.countP Event.isTransform
        = p.trace_.countP Event.isTransform
          + 2 * (if p.inputValue_.isSome then p.shape_.toNat else 0)
    ∧ ((p.rebind BulkDriver.EndDriver).bulk_driver.end_
        ((p.rebind BulkDriver.EndDriver).bulk_driver.end_
          (p.rebind BulkDriver.EndDriver)).state).thrown = none
    ∧ ((p.rebind BulkDriver.EndDriver).bulk_driver.end_
        ((p.rebind BulkDriver.EndDriver).bulk_driver.end_
          (p.rebind BulkDriver.EndDriver)).state).state.trace_.countP Event.isSlotWrite
        = p.trace_.countP Event.isSlotWrite + 2
    ∧ ((p.rebind BulkDriver.EndDriver).bulk_driver.end_
        ((p.rebind BulkDriver.EndDriver).bulk_driver.end_
          (p.rebind BulkDriver.EndDriver)).state).state.trace_.countP Event.isTransform
        = p.trace_.countP Event.isTransform
          + 2 * (if p.inputValue_.isSome then p.shape_.toNat else 0) := by
  have he : ∀ q : InputPromise F,
      (p.rebind BulkDriver.DefaultDriver).bulk_driver.start q = sequence q :=
    fun q => default_start_eq_sequence q
  have hd : ∀ q : InputPromise F,
      (p.rebind BulkDriver.EndDriver).bulk_driver.end_ q = sequence q :=
    fun q => end_driver_eq_sequence q
  have hdone : p.done.done.trace_.countP Event.isSlotWrite
      = p.trace_.countP Event.isSlotWrite + 2 := by
    rcases p with ⟨f, op, iv, oe, r, sh, bd, tr⟩
    cases oe <;> simp [InputPromise.done, Event.isSlotWrite]
  have ce := sequence_twice_counts (p.rebind BulkDriver.DefaultDriver)
  have cd := sequence_twice_counts (p.rebind BulkDriver.EndDriver)
  rw [he, he, hd, hd, sequence_twice (p.rebind BulkDriver.DefaultDriver) hf,
    sequence_twice (p.rebind BulkDriver.EndDriver) hf]
  exact ⟨hdone, rfl, ce.1, ce.2.2, rfl, cd.1, cd.2.2⟩

/-- Witness of the amended C14: the eager sample promise. -/
theorem repeated_call_not_rejected_witness :
    sampleEager.NoThrow
    ∧ sampleEager.done.done.trace_.countP Event.isSlotWrite = sampleEager.trace_.countP Event.isSlotWrite + 2
    ∧ ((sampleEager.rebind BulkDriver.DefaultDriver).bulk_driver.start
        ((sampleEager.rebind BulkDriver.DefaultDriver).bulk_driver.start
          (sampleEager.rebind BulkDriver.DefaultDriver)).state).thrown = none
    ∧ ((sampleEager.rebind BulkDriver.DefaultDriver).bulk_driver.start
        ((sampleEager.rebind BulkDriver.DefaultDriver).bulk_driver.start
          (sampleEager.rebind BulkDriver.DefaultDriver)).state).state.trace_.countP Event.isSlotWrite
        = sampleEager.trace_.countP Event.isSlotWrite + 2
    ∧ ((sampleEager.rebind BulkDriver.DefaultDriver).bulk_driver.start
        ((sampleEager.rebind BulkDriver.DefaultDriver).bulk_driver.start
          (sampleEager.rebind BulkDriver.DefaultDriver)).state).state.trace_.countP Event.isTransform
        = sampleEager.trace_.countP Event.isTransform
          + 2 * (if sampleEager.inputValue_.isSome then sampleEager.shape_.toNat else 0)
    ∧ ((sampleEager.rebind BulkDriver.EndDriver).bulk_driver.end_
        ((sampleEager.rebind BulkDriver.EndDriver).bulk_driver.end_
          (sampleEager.rebind BulkDriver.EndDriver)).state).thrown = none
    ∧ ((sampleEager.rebind BulkDriver.EndDriver).bulk_driver.end_
        ((sampleEager.rebind BulkDriver.EndDriver).bulk_driver.end_
          (sampleEager.rebind BulkDriver.EndDriver)).state).state.trace_.countP Event.isSlotWrite
        = sampleEager.trace_.countP Event.isSlotWrite + 2
    ∧ ((sampleEager.rebind BulkDriver.EndDriver).bulk_driver.end_
        ((sampleEager.rebind BulkDriver.EndDriver).bulk_driver.end_
          (sampleEager.rebind BulkDriver.EndDriver)).state).state.trace_.countP Event.isTransform
        = sampleEager.trace_.countP Event.isTransform
          + 2 * (if sampleEager.inputValue_.isSome then sampleEager.shape_.toNat else 0) :=
  ⟨fun _ _ _ _ => rfl, repeated_call_not_rejected addInput sampleEager (fun _ _ _ _ => rfl)⟩

/-- C15: the shape is fixed at construction.  The promise built by the closure
of `bulk_then_value(f, s, rf)` has shape `s`, and `set_value`, `set_exception`,
`execute_at`, `done` and the `start` and `end` of the driver of any promise leave
`shape_` (what `get_shape` returns) as it was, also when the transform throws;
after `then_execute` of either executor the shape is still `s`. -/
theorem shape_immutable (F : FType) (p q : InputPromise F) (v idx : Int) (e : exception_ptr)
    (f : F.Obj) (s : Int) (rf : Unit → Int) (pr : Promise) (d : BulkDriver) (x : Int) :
    ((bulk_then_value f s rf).call pr d).1.get_shape = s
    ∧ (p.set_value v).get_shape = p.get_shape
    ∧ (p.set_exception e).get_shape = p.get_shape
    ∧ (p.execute_at idx).state.get_shape = p.get_shape
    ∧ p.done.get_shape = p.get_shape
    ∧ (q.bulk_driver.start p).state.get_shape = p.get_shape
    ∧ (q.bulk_driver.end_ p).state.get_shape = p.get_shape
    ∧ (q.bulk_driver.start_end p).state.get_shape = p.get_shape
    ∧ (SimpleExecutor.then_execute (BuilderType F) (bulk_then_value f s rf) x).boundCont.get_shape
        = s
    ∧ (BulkExecutor.then_execute (BuilderType F) (bulk_then_value f s rf) x).boundCont.get_shape
        = s := by
  have hstart : ∀ r : InputPromise F, (q.bulk_driver.start r).state.shape_ = r.shape_ := by
    intro r
    rcases driver_start_cases q r with ⟨_, h, _⟩ | ⟨_, h, _⟩
    · rw [h]; exact sequence_shape r
    · rw [h]
  have hend : ∀ r : InputPromise F, (q.bulk_driver.end_ r).state.shape_ = r.shape_ := by
    intro r
    rcases driver_start_cases q r with ⟨_, _, h⟩ | ⟨_, _, h⟩
    · rw [h]
    · rw [h]; exact sequence_shape r
  have hpair : ∀ r : InputPromise F, (r.bulk_driver.start_end r).state.shape_ = r.shape_ := by
    intro r
    rw [start_end_eq_sequence]
    exact sequence_shape r
  have hpq : (q.bulk_driver.start_end p).state.shape_ = p.shape_ := by
    unfold DriverImpl.start_end
    have h1 := hstart p
    rcases hq : q.bulk_driver.start p with ⟨r, _ | ex⟩
    · rw [hq] at h1
      exact (hend r).trans h1
    · rw [hq] at h1
      exact h1
  have hrun : ∀ (r : InputPromise F), (run_bound r x).2.shape_ = r.shape_ := by
    intro r
    rw [run_bound_eq]
    have h1 := sequence_shape (r.set_value x)
    rcases hq : sequence (r.set_value x) with ⟨b, _ | ex⟩
    · rw [hq] at h1
      simp only
      cases b.outputPromise_.resultStorage <;> exact h1
    · rw [hq] at h1
      exact h1
  refine ⟨rfl, rfl, rfl, execute_at_shape p idx, (done_frame p).2.2.1, hstart p, hend p, hpq,
    ?_, ?_⟩
  · exact hrun (InputPromise.new f { resultStorage := none, exceptionStorage := none } (rf ()) s
      BulkDriver.DefaultDriver)
  · exact hrun (InputPromise.new f { resultStorage := none, exceptionStorage := none } (rf ()) s
      BulkDriver.EndDriver)

end BulkDriverInPromise
